import Mathlib

/-!
Shallow embedding of `scripts/common/rest_api_helpers.py`.

The HTTP transport, JSON decoding and the filesystem are external
collaborators of this layer.  They are made explicit inputs of the
embedded functions: a `Response` carries the status, the raw body and
the result of decoding the body as JSON; the paginated iterator receives
the sequence of page responses the server would hand back, one per
request, and the download primitive receives the current filesystem and
the network as a function from URL to body bytes.  Console output is
returned as a list of emitted lines.
-/

namespace RestApiHelpers

/-- Value of a decoded JSON document (Python's `response.json()` result;
`null` corresponds to Python `None`). -/
inductive Json where
  | null : Json
  | str : String → Json
  | num : Int → Json
  | bool : Bool → Json
  | arr : List Json → Json
  | obj : List (String × Json) → Json

/-- Serialization of a JSON value, modelling `json.dumps`. -/
def Json.dumps : Json → String
  | .null => "null"
  | .str s => "\"" ++ s ++ "\""
  | .num n => toString n
  | .bool b => if b then "true" else "false"
  | .arr xs => "[" ++ String.intercalate ", " (xs.attach.map fun x => x.1.dumps) ++ "]"
  | .obj fs => "\x7b" ++
      String.intercalate ", " (fs.attach.map fun f => "\"" ++ f.1.1 ++ "\": " ++ f.1.2.dumps) ++
      "\x7d"
decreasing_by
  · simp only [Json.arr.sizeOf_spec]
    have h := List.sizeOf_lt_of_mem x.2
    omega
  · simp only [Json.obj.sizeOf_spec]
    have h := List.sizeOf_lt_of_mem f.2
    have h2 : sizeOf f.1.2 < sizeOf f.1 := by
      obtain ⟨⟨a, b⟩, hf⟩ := f
      simp only [Prod.mk.sizeOf_spec]
      omega
    omega

/-- An HTTP response as this layer observes it: the status code, the raw
body (`response.content`, shown as Python shows a bytes object), and the
outcome of decoding the body as JSON (`response.json()`, which fails on
an undecodable body). -/
structure Response where
  status : Nat
  content : String
  jsonBody : Except String Json

/-- Modelled from the spec: the status check of the external HTTP
library (`response.raise_for_status`).  Per the spec's error taxonomy,
any response whose status is not a 2xx success raises an HTTP error. -/
def statusOk (s : Nat) : Bool := decide (200 ≤ s) && decide (s < 300)

/-- Errors `query_api` can propagate: an HTTP error from the status
check, or a failure to decode the body as JSON. -/
inductive QueryError where
  | httpError : QueryError
  | jsonDecodeError : String → QueryError
deriving DecidableEq

/-- Embedding of `query_api`.  Returns the decoded JSON (or the
propagated error) together with the list of console lines emitted, in
order.  Mirrors the source: the request URL is printed first when
debugging, the status is checked, and the debug block decodes the body,
printing the serialized JSON unless the decoded value is `null`
(Python `None`), in which case the raw bytes are printed. -/
def query_api (url : String) (resp : Response) (debug_requests : Bool) :
    Except QueryError Json × List String :=
  let pre : List String := if debug_requests then ["REQUEST: " ++ url] else []
  if statusOk resp.status then
    if debug_requests then
      match resp.jsonBody with
      | .error msg => (.error (.jsonDecodeError msg), pre)
      | .ok j =>
        let body : String :=
          match j with
          | .null => "b'" ++ resp.content ++ "'"
          | j' => Json.dumps j'
        (.ok j, pre ++ ["========== RESPONSE ==========", body,
                        "=============================="])
    else
      match resp.jsonBody with
      | .error msg => (.error (.jsonDecodeError msg), [])
      | .ok j => (.ok j, [])
  else
    (.error .httpError, pre)

/-- A string-keyed mapping, modelling a Python dict. -/
abbrev Dict (β : Type) := List (String × β)

/-- Decides whether a key is present (`k in d`). -/
def hasKey (d : Dict β) (k : String) : Bool := d.any fun p => decide (p.1 = k)

/-- Dict update `\x7b**d, k: v\x7d`: replaces the value at `k` in place
if the key is present, otherwise appends the new binding. -/
def dictSet : Dict β → String → β → Dict β
  | [], k, v => [(k, v)]
  | p :: rest, k, v => if p.1 = k then (k, v) :: rest else p :: dictSet rest k v

/-- Params of a Python dict of strings. -/
abbrev Params := Dict String

/-- The filesystem as the download primitive observes it: a mapping from
path to file content bytes. -/
abbrev FileSystem := Dict (List Nat)

/-- The one error `download_file` raises itself. -/
inductive DownloadError where
  | fileAlreadyExists : DownloadError
deriving DecidableEq

/-- Embedding of `download_file`.  `fs` is the current filesystem, `net`
maps a URL to the streamed response body.  Returns the outcome (the new
filesystem, or `FileAlreadyExists`) paired with the list of URLs
requested over the network, in order. -/
def download_file (fs : FileSystem) (net : String → List Nat)
    (url : String) (target_path : String) (overwrite : Bool) :
    Except DownloadError FileSystem × List String :=
  if !overwrite && (fs.lookup target_path).isSome then
    (.error .fileAlreadyExists, [])
  else
    (.ok (dictSet fs target_path (net url)), [url])

/-- A paginated response as the CI API returns it: the page's items and
the `next_page_token` field.  The outer `Option` records whether the
field is present in the response object at all; the inner one is the
field's value (`none` = JSON null, meaning no more pages). -/
structure Page (α : Type) where
  items : List α
  next_page_token : Option (Option String)
deriving DecidableEq

/-- How a pagination run can fail after it has started: the served
response lacks the `next_page_token` key (Python `KeyError`), or the
server had no response left for an issued request. -/
inductive RunError where
  | keyError : RunError
  | noResponse : RunError
deriving DecidableEq

/-- Trace of one pagination run: the params of every GET issued in
order, the item pages yielded in order, and how the run ended. -/
structure RunResult (α : Type) where
  requests : List Params
  pages : List (List α)
  err : Option RunError
deriving DecidableEq

/-- Guard of the pagination loop: `max_pages is None or page_count <
max_pages`. -/
def loopGuard (mp : Option Int) (pc : Int) : Bool :=
  match mp with
  | none => true
  | some m => decide (pc < m)

/-- Rebinding step `params = \x7b**params, 'page-token':
next_page_token\x7d`, executed only when the token is not `None`. -/
def mergeTok (params : Params) (tok : Option String) : Params :=
  match tok with
  | some t => dictSet params "page-token" t
  | none => params

/-- The `while` loop of `paginated_query_api_iterator`.  `responses` is
the sequence of page responses the server returns, one per issued
request; `params`, `pc` and `tok` are the loop's local variables
(current params, `page_count`, `next_page_token`).  Each iteration
requests once, yields the page's items, then reads the token field:
absent means a `KeyError`, null means break, a string means continue
with the token merged into the params. -/
def iterLoop (mp : Option Int) :
    List (Page α) → Params → Int → Option String → RunResult α
  | responses, params, pc, tok =>
    if loopGuard mp pc then
      match responses with
      | [] => ⟨[mergeTok params tok], [], some .noResponse⟩
      | r :: rest =>
        let tail : RunResult α :=
          match r.next_page_token with
          | none => ⟨[], [], some .keyError⟩
          | some none => ⟨[], [], none⟩
          | some (some t) => iterLoop mp rest (mergeTok params tok) (pc + 1) (some t)
        ⟨mergeTok params tok :: tail.requests, r.items :: tail.pages, tail.err⟩
    else ⟨[], [], none⟩

/-- The assertion failure of the iterator's precondition, or a failure
of the run itself. -/
inductive PaginationError where
  | assertionError : PaginationError
  | keyError : PaginationError
  | noResponse : PaginationError
deriving DecidableEq

/-- Default page cap of `CircleCI`. -/
def DEFAULT_MAX_PAGES : Int := 10

/-- Embedding of `CircleCI.paginated_query_api_iterator`: asserts that
the caller's params do not already carry the reserved `page-token` key,
then runs the pagination loop from `page_count = 0` with no token. -/
def paginated_query_api_iterator (params : Params) (mp : Option Int)
    (responses : List (Page α)) : Except PaginationError (RunResult α) :=
  if hasKey params "page-token" then .error .assertionError
  else .ok (iterLoop mp responses params 0 none)

/-- The params of every GET request a call to the paginated iterator
issues, in order; empty when the precondition assertion fails. -/
def issuedRequests (params : Params) (mp : Option Int)
    (responses : List (Page α)) : List Params :=
  match paginated_query_api_iterator params mp responses with
  | .error _ => []
  | .ok r => r.requests

/-- Embedding of `CircleCI.paginated_query_api`:
`functools.reduce(operator.add, iterator, [])`, concatenating the
yielded pages; any error raised by the iterator propagates. -/
def paginated_query_api (params : Params) (mp : Option Int)
    (responses : List (Page α)) : Except PaginationError (List α) :=
  match paginated_query_api_iterator params mp responses with
  | .error e => .error e
  | .ok r =>
    match r.err with
    | some .keyError => .error .keyError
    | some .noResponse => .error .noResponse
    | none => .ok (r.pages.foldl (fun a b => a ++ b) [])

/-- An item of a CI list response, as far as this layer inspects it: the
`created_at` field (a sortable timestamp) plus opaque payload. -/
structure Item where
  created_at : Nat
  payload : String
deriving DecidableEq

/-- Comparison used by `latest_item`'s sort key. -/
def createdLe (a b : Item) : Prop := a.created_at ≤ b.created_at

instance : DecidableRel createdLe := fun a b => by
  unfold createdLe; infer_instance

instance : IsTotal Item createdLe := ⟨fun a b => le_total a.created_at b.created_at⟩

instance : IsTrans Item createdLe := ⟨fun _ _ _ h h' => le_trans h h'⟩

/-- Embedding of `CircleCI.latest_item`: sorts ascending by
`created_at` and returns the first element, or `none` when empty. -/
def latest_item (items : List Item) : Option Item :=
  match List.insertionSort createdLe items with
  | [] => none
  | x :: _ => some x

/-- Decides whether a page's `next_page_token` field holds a string. -/
def tokenIsStr (p : Page α) : Bool :=
  match p.next_page_token with
  | some (some _) => true
  | _ => false

/-- Decides whether a response sequence is a complete pagination chain:
nonempty, every page but the last carries a string token, and the last
page's token is present and null. -/
def goodSeq : List (Page α) → Bool
  | [] => false
  | [p] => decide (p.next_page_token = some none)
  | p :: q :: rest => tokenIsStr p && goodSeq (q :: rest)

theorem tokenIsStr_iff (p : Page α) :
    tokenIsStr p = true ↔ ∃ t, p.next_page_token = some (some t) := by
  cases hp : p.next_page_token with
  | none => simp [tokenIsStr, hp]
  | some o => cases o with
    | none => simp [tokenIsStr, hp]
    | some t => simp [tokenIsStr, hp]

theorem dictSet_dictSet (d : Dict β) (k : String) (v1 v2 : β) :
    dictSet (dictSet d k v1) k v2 = dictSet d k v2 := by
  induction d with
  | nil => simp [dictSet]
  | cons p rest ih =>
    by_cases h : p.1 = k
    · simp [dictSet, h]
    · simp [dictSet, h, ih]

theorem lookup_dictSet (d : Dict β) (k : String) (v : β) :
    (dictSet d k v).lookup k = some v := by
  induction d with
  | nil => simp [dictSet, List.lookup]
  | cons p rest ih =>
    by_cases h : p.1 = k
    · simp [dictSet, h, List.lookup]
    · have hk : (k == p.1) = false := by
        simp [Ne.symm h]
      simp [dictSet, h, List.lookup, hk, ih]

theorem foldl_append_eq_append_join (l : List (List β)) (acc : List β) :
    l.foldl (fun a b => a ++ b) acc = acc ++ l.flatten := by
  induction l generalizing acc with
  | nil => simp
  | cons x xs ih => simp [List.foldl_cons, ih]

/-- C3: params already containing the reserved `page-token` key make the
paginated iterator fail with the assertion error before any HTTP request
is issued; params without that key pass the assertion. -/
theorem paginated_iterator_reserved_key (params : Params) (mp : Option Int)
    (responses : List (Page α)) :
    (hasKey params "page-token" = true →
      paginated_query_api_iterator params mp responses = .error .assertionError ∧
      issuedRequests params mp responses = []) ∧
    (hasKey params "page-token" = false →
      ∃ r, paginated_query_api_iterator params mp responses = .ok r) := by
  constructor <;> intro h <;>
    simp [paginated_query_api_iterator, issuedRequests, h]

theorem paginated_iterator_reserved_key_witness :
    paginated_query_api_iterator [("page-token", "x")] (some 10)
        ([] : List (Page Nat)) = .error .assertionError ∧
      issuedRequests [("page-token", "x")] (some 10) ([] : List (Page Nat)) = [] :=
  (paginated_iterator_reserved_key _ _ _).1 (by decide)

/-- C5: when the target path exists and overwrite is disallowed,
`download_file` fails with `FileAlreadyExists` and issues zero network
requests; with overwrite allowed it issues the one GET and the file's
content afterwards equals the response body bytes. -/
theorem download_file_overwrite_protection (fs : FileSystem)
    (net : String → List Nat) (url path : String) :
    ((fs.lookup path).isSome = true →
      download_file fs net url path false = (.error .fileAlreadyExists, [])) ∧
    ((fs.lookup path).isSome = true →
      ∃ fs', download_file fs net url path true = (.ok fs', [url]) ∧
        fs'.lookup path = some (net url)) := by
  constructor <;> intro h
  · simp [download_file, h]
  · exact ⟨dictSet fs path (net url), by simp [download_file], lookup_dictSet fs path (net url)⟩

theorem download_file_overwrite_protection_witness :
    download_file [("a.txt", [1, 2])] (fun _ => [9]) "http://u" "a.txt" false =
      (.error .fileAlreadyExists, []) :=
  (download_file_overwrite_protection _ _ _ _).1 (by decide)

/-- C6: `latest_item` of the empty list is `none`, and whenever it
returns an item that item belongs to the input and its `created_at` is
minimal (earliest) among all input items. -/
theorem latest_item_earliest (items : List Item) :
    (latest_item items = none ↔ items = []) ∧
    (∀ x, latest_item items = some x →
      x ∈ items ∧ ∀ y ∈ items, x.created_at ≤ y.created_at) := by
  have hperm := List.perm_insertionSort createdLe items
  have hsorted := List.sorted_insertionSort createdLe items
  constructor
  · constructor
    · intro h
      cases hs : List.insertionSort createdLe items with
      | nil =>
        rw [hs] at hperm
        exact hperm.symm.eq_nil
      | cons x rest =>
        simp [latest_item, hs] at h
    · intro h
      subst h
      simp [latest_item, List.insertionSort]
  · intro x hx
    cases hs : List.insertionSort createdLe items with
    | nil => simp [latest_item, hs] at hx
    | cons z rest =>
      rw [latest_item, hs] at hx
      have hz : z = x := by simpa using hx
      subst hz
      rw [hs] at hperm hsorted
      constructor
      · exact hperm.subset (List.mem_cons_self z rest)
      · intro y hy
        have hy' : y ∈ z :: rest := hperm.symm.subset hy
        rcases List.mem_cons.mp hy' with h1 | h2
        · subst h1; exact le_refl _
        · exact List.rel_of_sorted_cons hsorted y h2

theorem latest_item_earliest_witness :
    latest_item [⟨20200101, "a"⟩, ⟨20190101, "b"⟩] = some ⟨20190101, "b"⟩ ∧
      (⟨20190101, "b"⟩ : Item) ∈ [(⟨20200101, "a"⟩ : Item), ⟨20190101, "b"⟩] :=
  ⟨by decide, (((latest_item_earliest _).2 _ (by decide))).1⟩

/-- C9: a response whose status is not a 2xx success makes `query_api`
fail with the propagated HTTP error and return no value; a 2xx response
whose body decodes to JSON makes it return exactly that decoded value. -/
theorem query_api_status (url : String) (resp : Response) (debug : Bool) :
    (statusOk resp.status = false →
      (query_api url resp debug).1 = .error .httpError) ∧
    (∀ j, statusOk resp.status = true → resp.jsonBody = .ok j →
      (query_api url resp debug).1 = .ok j) := by
  constructor
  · intro h
    simp [query_api, h]
  · intro j h hj
    cases debug <;> simp [query_api, h, hj]

theorem query_api_status_witness :
    (query_api "u" ⟨404, "e", .ok (Json.str "err")⟩ false).1 =
        .error .httpError ∧
      (query_api "u" ⟨200, "e", .ok (Json.str "fine")⟩ false).1 =
        .ok (Json.str "fine") :=
  ⟨(query_api_status "u" ⟨404, "e", .ok (Json.str "err")⟩ false).1 (by decide),
   (query_api_status "u" ⟨200, "e", .ok (Json.str "fine")⟩ false).2 _ (by decide) rfl⟩

/-- C10: a zero or negative `max_pages` makes `paginated_query_api`
return the empty list, issuing no request and raising no error, for any
params free of the reserved key. -/
theorem paginated_query_api_nonpositive_cap (params : Params) (m : Int)
    (responses : List (Page α)) (hk : hasKey params "page-token" = false)
    (hm : m ≤ 0) :
    paginated_query_api params (some m) responses = .ok [] ∧
    issuedRequests params (some m) responses = [] := by
  have hguard : loopGuard (some m) 0 = false := by
    simp [loopGuard]; omega
  constructor <;>
  · simp only [paginated_query_api, paginated_query_api_iterator, issuedRequests, hk,
      Bool.false_eq_true, if_false]
    rw [iterLoop.eq_def]
    simp [hguard]

theorem paginated_query_api_nonpositive_cap_witness :
    paginated_query_api [("a", "b")] (some 0)
        [(⟨[1], some none⟩ : Page Nat)] = .ok [] ∧
      issuedRequests [("a", "b")] (some 0) [(⟨[1], some none⟩ : Page Nat)] = [] :=
  paginated_query_api_nonpositive_cap _ _ _ (by decide) (by decide)

theorem iterLoop_goodSeq (responses : List (Page α)) :
    ∀ (m pc : Int) (params : Params) (tok : Option String),
      goodSeq responses = true → pc + responses.length ≤ m →
      (iterLoop (some m) responses params pc tok).pages = responses.map Page.items ∧
      (iterLoop (some m) responses params pc tok).err = none ∧
      (iterLoop (some m) responses params pc tok).requests.length = responses.length := by
  induction responses with
  | nil =>
    intro m pc params tok hg
    simp [goodSeq] at hg
  | cons p rest ih =>
    intro m pc params tok hg hle
    have hguard : loopGuard (some m) pc = true := by
      simp only [List.length_cons] at hle
      simp [loopGuard]
      omega
    cases rest with
    | nil =>
      have hp : p.next_page_token = some none := by
        simpa [goodSeq] using hg
      rw [iterLoop.eq_def]
      simp [hguard, hp]
    | cons q rest2 =>
      have hg2 : tokenIsStr p = true ∧ goodSeq (q :: rest2) = true := by
        simpa [goodSeq] using hg
      obtain ⟨t, ht⟩ := (tokenIsStr_iff p).mp hg2.1
      have hrec := ih m (pc + 1) (mergeTok params tok) (some t) hg2.2
        (by simp only [List.length_cons] at hle ⊢; omega)
      rw [iterLoop.eq_def]
      simp [hguard, ht, hrec.1, hrec.2.1, hrec.2.2]

/-- C1: a complete pagination chain (string tokens throughout, null on
the last page) with a page cap at least its length makes
`paginated_query_api` return the in-order concatenation of all pages'
items, with exactly one GET request issued per page. -/
theorem paginated_query_api_full_chain (responses : List (Page α))
    (params : Params) (m : Int) (hk : hasKey params "page-token" = false)
    (hg : goodSeq responses = true) (hm : (responses.length : Int) ≤ m) :
    paginated_query_api params (some m) responses =
      .ok (responses.map Page.items).flatten ∧
    (issuedRequests params (some m) responses).length = responses.length := by
  have h := iterLoop_goodSeq responses m 0 params none hg (by omega)
  constructor
  · simp only [paginated_query_api, paginated_query_api_iterator, hk,
      Bool.false_eq_true, if_false, h.2.1, h.1]
    rw [foldl_append_eq_append_join]
    simp
  · simp only [issuedRequests, paginated_query_api_iterator, hk,
      Bool.false_eq_true, if_false, h.2.2]

theorem paginated_query_api_full_chain_witness :
    paginated_query_api [("branch", "main")] (some 10)
        [(⟨[1, 2], some (some "A")⟩ : Page Nat), ⟨[3], some (some "B")⟩,
          ⟨[4, 5], some none⟩] = .ok [1, 2, 3, 4, 5] ∧
      (issuedRequests [("branch", "main")] (some 10)
        [(⟨[1, 2], some (some "A")⟩ : Page Nat), ⟨[3], some (some "B")⟩,
          ⟨[4, 5], some none⟩]).length = 3 :=
  paginated_query_api_full_chain _ _ _ (by decide) (by decide) (by decide)

theorem iterLoop_cap (responses : List (Page α)) :
    ∀ (m pc : Int) (params : Params) (tok : Option String),
      (∀ p ∈ responses.take (m - pc).toNat, tokenIsStr p = true) →
      (m - pc).toNat ≤ responses.length →
      (iterLoop (some m) responses params pc tok).pages =
        (responses.take (m - pc).toNat).map Page.items ∧
      (iterLoop (some m) responses params pc tok).err = none ∧
      (iterLoop (some m) responses params pc tok).requests.length = (m - pc).toNat := by
  induction responses with
  | nil =>
    intro m pc params tok htok hlen
    have h0 : (m - pc).toNat = 0 := by simpa using hlen
    have hguard : loopGuard (some m) pc = false := by
      simp [loopGuard]; omega
    rw [iterLoop.eq_def]
    simp [hguard, h0]
  | cons r rest ih =>
    intro m pc params tok htok hlen
    by_cases hpm : pc < m
    · have hguard : loopGuard (some m) pc = true := by simp [loopGuard, hpm]
      have hn : (m - pc).toNat = (m - (pc + 1)).toNat + 1 := by omega
      have hr : tokenIsStr r = true := by
        apply htok r
        rw [hn, List.take_succ_cons]
        exact List.mem_cons_self r _
      obtain ⟨t, ht⟩ := (tokenIsStr_iff r).mp hr
      have hrec := ih m (pc + 1) (mergeTok params tok) (some t)
        (fun p hp => htok p (by rw [hn, List.take_succ_cons]; exact List.mem_cons_of_mem r hp))
        (by simp only [List.length_cons] at hlen; omega)
      rw [iterLoop.eq_def]
      simp [hguard, ht, hrec.1, hrec.2.1, hrec.2.2, hn, List.take_succ_cons]
    · have hguard : loopGuard (some m) pc = false := by
        simp [loopGuard]; omega
      have h0 : (m - pc).toNat = 0 := by omega
      rw [iterLoop.eq_def]
      simp [hguard, h0]

/-- C2: when every served page still announces a further page and the
cap is a positive number of pages the server can serve, the run stops
silently after exactly `max_pages` requests and returns the
concatenation of exactly the first `max_pages` pages' items. -/
theorem paginated_query_api_page_cap (responses : List (Page α))
    (params : Params) (m : Int) (hk : hasKey params "page-token" = false)
    (_hm0 : 0 < m) (hml : m.toNat ≤ responses.length)
    (htok : ∀ p ∈ responses.take m.toNat, tokenIsStr p = true) :
    paginated_query_api params (some m) responses =
      .ok ((responses.take m.toNat).map Page.items).flatten ∧
    (issuedRequests params (some m) responses).length = m.toNat := by
  have h := iterLoop_cap responses m 0 params none (by simpa using htok)
    (by simpa using hml)
  rw [Int.sub_zero] at h
  constructor
  · simp only [paginated_query_api, paginated_query_api_iterator, hk,
      Bool.false_eq_true, if_false, h.2.1, h.1]
    rw [foldl_append_eq_append_join]
    simp
  · simp only [issuedRequests, paginated_query_api_iterator, hk,
      Bool.false_eq_true, if_false, h.2.2]

theorem paginated_query_api_page_cap_witness :
    paginated_query_api [("branch", "main")] (some 2)
        [(⟨[1, 2], some (some "A")⟩ : Page Nat), ⟨[3], some (some "B")⟩,
          ⟨[4, 5], some (some "C")⟩] = .ok [1, 2, 3] ∧
      (issuedRequests [("branch", "main")] (some 2)
        [(⟨[1, 2], some (some "A")⟩ : Page Nat), ⟨[3], some (some "B")⟩,
          ⟨[4, 5], some (some "C")⟩]).length = 2 :=
  paginated_query_api_page_cap _ _ _ (by decide) (by decide) (by decide) (by decide)

theorem iterLoop_head_request (mp : Option Int) (responses : List (Page α))
    (params : Params) (pc : Int) (tok : Option String) (d : Params)
    (h : (iterLoop mp responses params pc tok).requests[0]? = some d) :
    d = mergeTok params tok := by
  by_cases hg : loopGuard mp pc
  · cases responses with
    | nil =>
      rw [iterLoop.eq_def] at h
      simp [hg] at h
      exact h.symm
    | cons r rest =>
      rw [iterLoop.eq_def] at h
      simp [hg] at h
      exact h.symm
  · rw [iterLoop.eq_def] at h
    simp [hg] at h

theorem iterLoop_later_requests (responses : List (Page α)) :
    ∀ (mp : Option Int) (pc : Int) (base params : Params) (tok : Option String),
      hasKey base "page-token" = false →
      (params = base ∨ ∃ t, params = dictSet base "page-token" t) →
      ∀ i d, (iterLoop mp responses params pc tok).requests[i + 1]? = some d →
        ∃ p t, responses[i]? = some p ∧ p.next_page_token = some (some t) ∧
          d = dictSet base "page-token" t := by
  induction responses with
  | nil =>
    intro mp pc base params tok _ _ i d h
    by_cases hg : loopGuard mp pc <;>
    · rw [iterLoop.eq_def] at h
      simp [hg] at h
  | cons r rest ih =>
    intro mp pc base params tok hb hinv i d h
    by_cases hg : loopGuard mp pc
    · have hinv' : mergeTok params tok = base ∨
          ∃ t, mergeTok params tok = dictSet base "page-token" t := by
        cases tok with
        | none => simpa [mergeTok] using hinv
        | some u =>
          right
          refine ⟨u, ?_⟩
          rcases hinv with h1 | ⟨t', h2⟩
          · simp [mergeTok, h1]
          · simp [mergeTok, h2, dictSet_dictSet]
      cases htok : r.next_page_token with
      | none =>
        rw [iterLoop.eq_def] at h
        simp [hg, htok] at h
      | some o =>
        cases o with
        | none =>
          rw [iterLoop.eq_def] at h
          simp [hg, htok] at h
        | some t =>
          have h' : (iterLoop mp rest (mergeTok params tok) (pc + 1)
              (some t)).requests[i]? = some d := by
            rw [iterLoop.eq_def] at h
            simpa [hg, htok] using h
          cases i with
          | zero =>
            have hd := iterLoop_head_request mp rest (mergeTok params tok)
              (pc + 1) (some t) d h'
            refine ⟨r, t, by simp, htok, ?_⟩
            rw [hd]
            show dictSet (mergeTok params tok) "page-token" t = dictSet base "page-token" t
            rcases hinv' with h1 | ⟨t', h2⟩
            · rw [h1]
            · rw [h2, dictSet_dictSet]
          | succ j =>
            have hres := ih mp (pc + 1) base (mergeTok params tok) (some t)
              hb hinv' j d h'
            simpa using hres
    · rw [iterLoop.eq_def] at h
      simp [hg] at h

/-- C4: the caller's parameter mapping is never changed by a pagination
run (the embedding is pure, so the caller's value is unchanged by
construction); the first GET is issued with exactly the caller's
mapping, and every later GET is issued with a fresh copy of that base
mapping with the previously served page's continuation token merged in
under the reserved key. -/
theorem pagination_params_not_mutated (base : Params) (mp : Option Int)
    (responses : List (Page α)) (hb : hasKey base "page-token" = false) :
    (∀ d, (issuedRequests base mp responses)[0]? = some d → d = base) ∧
    (∀ i d, (issuedRequests base mp responses)[i + 1]? = some d →
      ∃ p t, responses[i]? = some p ∧ p.next_page_token = some (some t) ∧
        d = dictSet base "page-token" t) := by
  have hreq : issuedRequests base mp responses =
      (iterLoop mp responses base 0 none).requests := by
    simp [issuedRequests, paginated_query_api_iterator, hb]
  constructor
  · intro d h
    rw [hreq] at h
    simpa [mergeTok] using iterLoop_head_request mp responses base 0 none d h
  · intro i d h
    rw [hreq] at h
    exact iterLoop_later_requests responses mp 0 base base none hb (Or.inl rfl) i d h

theorem pagination_params_not_mutated_witness :
    (issuedRequests [("a", "b")] (some 10)
        [(⟨[1], some (some "T")⟩ : Page Nat), ⟨[2], some none⟩])[1]? =
      some (dictSet [("a", "b")] "page-token" "T") := by
  have h : (issuedRequests [("a", "b")] (some 10)
      [(⟨[1], some (some "T")⟩ : Page Nat), ⟨[2], some none⟩])[1]? =
      some [("a", "b"), ("page-token", "T")] := by decide
  obtain ⟨p, t, hp, ht, hd⟩ :=
    (pagination_params_not_mutated [("a", "b")] (some 10)
      [(⟨[1], some (some "T")⟩ : Page Nat), ⟨[2], some none⟩] (by decide)).2 0 _ h
  have hp' : p = (⟨[1], some (some "T")⟩ : Page Nat) := by
    simpa using hp.symm
  subst hp'
  have ht' : t = "T" := by
    simpa using ht.symm
  subst ht'
  rw [h, hd]

/-- C8 (amended): at any reachable loop state, a served page whose
`next_page_token` field is present and null makes the run yield that
page's items and terminate normally, with no further request and no
error; a served page lacking the field makes the run yield the items and
then stop with a key-lookup error, likewise issuing no further
request. -/
theorem iterLoop_null_token_terminates (params : Params) (mp : Option Int)
    (pc : Int) (tok : Option String) (p : Page α) (rest : List (Page α))
    (hg : loopGuard mp pc = true) :
    (p.next_page_token = some none →
      iterLoop mp (p :: rest) params pc tok =
        ⟨[mergeTok params tok], [p.items], none⟩) ∧
    (p.next_page_token = none →
      iterLoop mp (p :: rest) params pc tok =
        ⟨[mergeTok params tok], [p.items], some .keyError⟩) := by
  constructor <;> intro h <;>
  · rw [iterLoop.eq_def]
    simp [hg, h]

theorem iterLoop_null_token_terminates_witness :
    iterLoop (some 10) [(⟨[5], some none⟩ : Page Nat), ⟨[6], some (some "T")⟩]
        [("a", "b")] 0 none = ⟨[[("a", "b")]], [[5]], none⟩ :=
  (iterLoop_null_token_terminates _ _ _ _ _ _ (by decide)).1 rfl

/-- C8 (counterexample): a single page response from which the
`next_page_token` field is entirely absent does not terminate the
pagination normally; the run fails with the key-lookup error instead. -/
theorem pagination_absent_token_counterexample :
    paginated_query_api ([] : Params) (some 10) [(⟨[7], none⟩ : Page Nat)] =
      .error .keyError := by rfl

/-- C7 (amended): with debug on and a 2xx response, the request URL is
emitted first; then, if the body decodes to a non-null JSON value its
serialization is emitted between the markers, if it decodes to JSON null
the raw body bytes are emitted between the markers instead, and if it
fails to decode the decode error propagates with no marker emitted.
With debug off no console line is emitted at all. -/
theorem query_api_debug_output (url : String) (resp : Response) :
    (statusOk resp.status = true →
      (∀ j, resp.jsonBody = .ok j → j ≠ Json.null →
        query_api url resp true =
          (.ok j, ["REQUEST: " ++ url, "========== RESPONSE ==========",
            Json.dumps j, "=============================="])) ∧
      (resp.jsonBody = .ok Json.null →
        query_api url resp true =
          (.ok Json.null, ["REQUEST: " ++ url, "========== RESPONSE ==========",
            "b'" ++ resp.content ++ "'", "=============================="])) ∧
      (∀ msg, resp.jsonBody = .error msg →
        query_api url resp true =
          (.error (.jsonDecodeError msg), ["REQUEST: " ++ url]))) ∧
    (query_api url resp false).2 = [] := by
  constructor
  · intro hst
    refine ⟨?_, ?_, ?_⟩
    · intro j hj hnull
      cases j
      case null => exact absurd rfl hnull
      all_goals simp [query_api, hst, hj]
    · intro hj
      simp [query_api, hst, hj]
    · intro msg hj
      simp [query_api, hst, hj]
  · by_cases hst : statusOk resp.status
    · cases hj : resp.jsonBody <;> simp [query_api, hst, hj]
    · simp [query_api, hst]

theorem query_api_debug_output_witness :
    query_api "http://x" ⟨200, "raw", .ok (Json.num 5)⟩ true =
      (.ok (Json.num 5), ["REQUEST: http://x", "========== RESPONSE ==========",
        Json.dumps (Json.num 5), "=============================="]) :=
  ((query_api_debug_output "http://x" ⟨200, "raw", .ok (Json.num 5)⟩).1
    (by decide)).1 (Json.num 5) rfl (fun h => nomatch h)

/-- C7 (counterexample): a 2xx response whose body is the decodable JSON
document `null` does not get its pretty-printed JSON body emitted; the
debug block prints the raw bytes between the markers instead. -/
theorem query_api_null_body_counterexample :
    (⟨200, "null", .ok Json.null⟩ : Response).jsonBody = .ok Json.null ∧
    (query_api "u" ⟨200, "null", .ok Json.null⟩ true).2 =
      ["REQUEST: u", "========== RESPONSE ==========", "b'null'",
        "=============================="] ∧
    Json.dumps Json.null ∉ (query_api "u" ⟨200, "null", .ok Json.null⟩ true).2 := by
  have hd : Json.dumps Json.null = "null" := by
    rw [Json.dumps]
  refine ⟨rfl, by rfl, ?_⟩
  rw [hd]
  decide

end RestApiHelpers
